import Mathlib

/-!
Verification of the Mediaspace downloader core
(`src/mediaspace_downloader.py`): the playlist resolver
(`parse_m3u8`), the segment fetcher (`download_all_segments` /
`download_segment`), and the assembler (`concatenate_with_ffmpeg` /
`concatenate_simple` / the stitching step of `download_video`).

The Python functions are shallowly embedded as executable Lean
definitions over `Str := List Char` (so that every definition reduces
inside the kernel).  Network I/O is abstracted as a
`Str → Option Str` fetch function (`none` models a transport failure,
which the Python code catches with `except Exception`), and filesystem
facts (file existence, file bytes) are abstracted as explicit function
arguments.
-/

namespace Mediaspace

/-- Text is modelled as a list of characters. -/
abbrev Str := List Char

/-- The whitespace characters stripped by Python's `str.strip()`. -/
def isPyWhitespace (c : Char) : Bool :=
  c == ' ' || c == '\t' || c == '\n' || c == '\r' || c == Char.ofNat 11 || c == Char.ofNat 12

/-- Models Python's `s.strip()`: remove leading and trailing whitespace. -/
def trimL (s : Str) : Str :=
  ((s.dropWhile isPyWhitespace).reverse.dropWhile isPyWhitespace).reverse

/-- `isPrefixOfL pre s` is true when `pre` is an initial run of `s`. -/
def isPrefixOfL : Str → Str → Bool
  | [], _ => true
  | _ :: _, [] => false
  | a :: as, b :: bs => a == b && isPrefixOfL as bs

/-- Models Python's `s.startswith(pre)`. -/
def startsWithL (s pre : Str) : Bool :=
  isPrefixOfL pre s

/-- Models Python's `s.endswith(suf)`. -/
def endsWithL (s suf : Str) : Bool :=
  isPrefixOfL suf.reverse s.reverse

/-- Worker for `splitOnL`; the fuel argument (initially the input
length, which bounds the number of split steps) makes it structural so
that it reduces inside the kernel. -/
def splitOnAuxL (sep : Str) : Nat → Str → Str → List Str
  | _, [], acc => [acc.reverse]
  | 0, s, acc => [acc.reverse ++ s]
  | fuel + 1, c :: rest, acc =>
    if isPrefixOfL sep (c :: rest) then
      acc.reverse :: splitOnAuxL sep fuel (rest.drop (sep.length - 1)) []
    else
      splitOnAuxL sep fuel rest (c :: acc)

/-- Models Python's `s.split(sep)` for a non-empty separator (the only
way the downloader uses it): non-overlapping occurrences, scanned left
to right, keeping empty pieces. -/
def splitOnL (s sep : Str) : List Str :=
  if sep.isEmpty then [s] else splitOnAuxL sep s.length s []

/-- Models Python's substring test `sub in s` for the non-empty literal
needles used by the downloader (`#EXT-X-STREAM-INF`, `BANDWIDTH=`,
`TYPE=SUBTITLES`, `caption`, `/segment`, ...). -/
def containsSubL (s sub : Str) : Bool :=
  (splitOnL s sub).length != 1

/-- ASCII lowering of one character; playlist URLs are ASCII, so this
models Python's `str.lower()` on the inputs that occur. -/
def asciiLowerChar (c : Char) : Char :=
  if 'A' ≤ c && c ≤ 'Z' then Char.ofNat (c.toNat + 32) else c

/-- Models Python's `s.lower()` (ASCII range). -/
def toLowerL (s : Str) : Str :=
  s.map asciiLowerChar

/-- Models `int(d)` for a non-empty run `d` of decimal digits. -/
def digitRunToNat (s : Str) : Nat :=
  s.foldl (fun n c => n * 10 + (c.toNat - 48)) 0

/-- The `#EXT-X-STREAM-INF` directive marker (line 262 and line 268). -/
def masterMarker : Str := ("#EXT-X-STREAM-INF").data

/-- The newline separator used by `playlist_text.split('\n')`. -/
def newlineL : Str := [Char.ofNat 10]

/-- Models `'/'.join(m3u8_url.split('/')[:-1]) + '/'` (line 258): the
directory part of the playlist URL, with a trailing slash. -/
def baseUrlOf (url : Str) : Str :=
  List.intercalate ("/").data (splitOnL url ("/").data).dropLast ++ ("/").data

/-- Models `urllib.parse.urljoin(base, rel)` for the shapes this program
produces: `base` always ends in a slash (it comes from `baseUrlOf`) and
`rel` is a relative reference (the absolute-`http` case is branched on
before `urljoin` is ever called, lines 287 and 320).  A root-relative
`rel` replaces the whole path; any other `rel` is appended to the base
directory. -/
def urljoinModel (base rel : Str) : Str :=
  if startsWithL rel ("/").data then
    (match splitOnL base ("/").data with
     | scheme :: [] :: host :: _ => scheme ++ ("//").data ++ host
     | _ => []) ++ rel
  else base ++ rel

/-- Models lines 287-290 and 320-323: a URL line is kept verbatim when it
starts with `http`, otherwise it is resolved against the playlist's base
URL. -/
def resolveUrl (base u : Str) : Str :=
  if startsWithL u ("http").data then u else urljoinModel base u

/-- Models `re.search(r'BANDWIDTH=(\d+)', line)` (line 273): scan the
pieces after each occurrence of `BANDWIDTH=` and convert the first
maximal digit run found; `0` when no occurrence is followed by a digit. -/
def firstNumAfter : List Str → Nat
  | [] => 0
  | p :: ps =>
    let d := p.takeWhile Char.isDigit
    if d.isEmpty then firstNumAfter ps else digitRunToNat d

/-- Bandwidth extraction from a `#EXT-X-STREAM-INF` line, default `0`
(lines 270-275). -/
def extractBandwidth (line : Str) : Nat :=
  if containsSubL line ("BANDWIDTH=").data then
    firstNumAfter ((splitOnL line ("BANDWIDTH=").data).drop 1)
  else 0

/-- Models `re.search(r'seg_\d+', s)` / `re.search(r'chunk_\d+', s)`
(lines 314-315): some occurrence of `tok` is immediately followed by a
digit. -/
def hasNumberedToken (s tok : Str) : Bool :=
  ((splitOnL s tok).drop 1).any (fun p => !(p.takeWhile Char.isDigit).isEmpty)

/-- The segment-line heuristic of lines 309-316, applied to an already
stripped, non-empty, non-comment line. -/
def isSegmentLine (t : Str) : Bool :=
  endsWithL t (".ts").data ||
  containsSubL (toLowerL t) ("/segment").data ||
  containsSubL (toLowerL t) ("/chunk").data ||
  containsSubL (toLowerL t) ("/seg-").data ||
  hasNumberedToken (toLowerL t) ("seg_").data ||
  hasNumberedToken (toLowerL t) ("chunk_").data

/-- A raw playlist line qualifies as a segment line after stripping:
non-empty, not a `#` directive, and matching the segment heuristic
(lines 304-316). -/
def qualifiesAsSegment (l : Str) : Bool :=
  let t := trimL l
  !t.isEmpty && !startsWithL t ("#").data && isSegmentLine t

/-- The segment-extraction loop of lines 300-325: walk the playlist
lines in order, keep the qualifying ones, resolving relative URLs
against the playlist's base URL. -/
def extractTsSegments (base : Str) : List Str → List Str
  | [] => []
  | l :: rest =>
    let t := trimL l
    if !t.isEmpty && !startsWithL t ("#").data && isSegmentLine t then
      resolveUrl base t :: extractTsSegments base rest
    else
      extractTsSegments base rest

theorem extractTsSegments_eq_filter (base : Str) (ls : List Str) :
    extractTsSegments base ls =
      (ls.filter qualifiesAsSegment).map (fun l => resolveUrl base (trimL l)) := by
  induction ls with
  | nil => rfl
  | cons l rest ih =>
    by_cases h : qualifiesAsSegment l
    · have hb : (!(trimL l).isEmpty && !startsWithL (trimL l) ("#").data &&
          isSegmentLine (trimL l)) = true := h
      simp [extractTsSegments, List.filter_cons, h, hb, ih]
    · have hb : (!(trimL l).isEmpty && !startsWithL (trimL l) ("#").data &&
          isSegmentLine (trimL l)) = false := by
        simpa [qualifiesAsSegment] using h
      simp [extractTsSegments, List.filter_cons, h, hb, ih]

/-- One entry of `stream_info` (lines 265-290): the extracted bandwidth
and the (resolved) variant URL.  The `RESOLUTION` component of the
Python tuple is omitted here: it is extracted only to be printed, and
the sort key (`key=lambda x: x[0]`) never consults it. -/
def streamInfo (base : Str) : List Str → List (Nat × Str)
  | [] => []
  | l :: rest =>
    if startsWithL l masterMarker then
      (match rest with
       | [] => []
       | nxt :: _ =>
         let u := trimL nxt
         if !u.isEmpty && !startsWithL u ("#").data &&
            !containsSubL l ("TYPE=SUBTITLES").data &&
            !containsSubL (toLowerL u) ("caption").data then
           [(extractBandwidth l, resolveUrl base u)]
         else []) ++ streamInfo base rest
    else streamInfo base rest

/-- The comparison under which Python's
`stream_info.sort(key=lambda x: x[0], reverse=True)` sorts: descending
bandwidth.  Python's sort is stable, so it is modelled by a stable merge
sort under this comparison. -/
def bwGE (a b : Nat × Str) : Bool := decide (b.1 ≤ a.1)

/-- Lines 292-295: sort the collected variants by bandwidth, highest
first (stable), and take the first — `none` when no eligible variant was
collected. -/
def selectVariant (base : Str) (lines : List Str) : Option (Nat × Str) :=
  (List.mergeSort (streamInfo base lines) bwGE).head?

/-- Modelled from the spec: "among non-subtitle variants, pick strictly
maximum bandwidth; ties broken by first-occurrence order (stable)" — the
first collected variant whose bandwidth is greater than or equal to
every collected variant's bandwidth. -/
def specSelectVariant (info : List (Nat × Str)) : Option (Nat × Str) :=
  info.find? (fun v => info.all (fun w => decide (w.1 ≤ v.1)))

/-- The recursive playlist resolver `parse_m3u8` (lines 252-328).
`fetch` abstracts `self.session.get`: `none` is a transport failure (any
exception), which the source catches and turns into an empty segment
list.  The Python source has no recursion bound; the `fuel` argument
makes the Lean model total, with `none` meaning that resolution never
reached a media playlist within `fuel` hops (the source would still be
recursing). -/
def parseM3u8 (fetch : Str → Option Str) : Nat → Str → Option (List Str)
  | 0, _ => none
  | n + 1, url =>
    match fetch url with
    | none => some []
    | some text =>
      let base := baseUrlOf url
      let lines := splitOnL text newlineL
      if containsSubL text masterMarker then
        match selectVariant base lines with
        | some best => parseM3u8 fetch n best.2
        | none => some (extractTsSegments base lines)
      else some (extractTsSegments base lines)

theorem find?_eq_head_filter {α : Type} (p : α → Bool) (l : List α) :
    l.find? p = (l.filter p).head? := by
  induction l with
  | nil => rfl
  | cons a as ih =>
    rcases hb : p a with _ | _
    · rw [List.find?_cons_of_neg _ (by simp [hb]), List.filter_cons, if_neg (by simp [hb]), ih]
    · rw [List.find?_cons_of_pos _ hb, List.filter_cons, if_pos hb, List.head?_cons]

theorem find?_congr_mem {α : Type} {p q : α → Bool} (l : List α)
    (h : ∀ x ∈ l, p x = q x) : l.find? p = l.find? q := by
  induction l with
  | nil => rfl
  | cons a as ih =>
    have ha : p a = q a := h a (List.mem_cons_self a as)
    have ih2 := ih (fun x hx => h x (List.mem_cons_of_mem a hx))
    simp [List.find?_cons, ha, ih2]

theorem bwGE_trans : ∀ a b c : Nat × Str,
    bwGE a b = true → bwGE b c = true → bwGE a c = true := by
  intro a b c hab hbc
  simp only [bwGE, decide_eq_true_eq] at hab hbc ⊢
  omega

theorem bwGE_total : ∀ a b : Nat × Str, (bwGE a b || bwGE b a) = true := by
  intro a b
  simp only [bwGE, Bool.or_eq_true, decide_eq_true_eq]
  omega

/-- The head of the stable bandwidth-descending sort is the first listed
variant of maximal bandwidth. -/
theorem head_mergeSort_bwGE (l : List (Nat × Str)) :
    (List.mergeSort l bwGE).head? =
      l.find? (fun v => l.all (fun w => decide (w.1 ≤ v.1))) := by
  rcases hs : List.mergeSort l bwGE with _ | ⟨h, t⟩
  · have hl : l = [] := by
      have hp := List.mergeSort_perm l bwGE
      rw [hs] at hp
      exact hp.symm.eq_nil
    subst hl
    rfl
  · have hmem : h ∈ l := by
      have : h ∈ List.mergeSort l bwGE := by rw [hs]; exact List.mem_cons_self h t
      exact List.mem_mergeSort.mp this
    have hsorted := List.sorted_mergeSort bwGE_trans bwGE_total l
    rw [hs] at hsorted
    have hmax : ∀ x ∈ l, x.1 ≤ h.1 := by
      intro x hx
      have hx2 : x ∈ h :: t := by
        rw [← hs]
        exact List.mem_mergeSort.mpr hx
      rcases List.mem_cons.mp hx2 with rfl | hxt
      · exact Nat.le_refl _
      · have := (List.pairwise_cons.mp hsorted).1 x hxt
        simpa [bwGE] using this
    -- the tie class of the maximal bandwidth
    set p : Nat × Str → Bool := fun x => decide (x.1 = h.1) with hp
    have hFp : (l.filter p).Pairwise (fun a b => bwGE a b = true) := by
      apply List.pairwise_of_forall_mem_list
      intro a ha b hb
      have ha2 := (List.mem_filter.mp ha).2
      have hb2 := (List.mem_filter.mp hb).2
      simp only [hp, decide_eq_true_eq] at ha2 hb2
      simp [bwGE, ha2, hb2]
    have hsub : List.Sublist (l.filter p) (List.mergeSort l bwGE) :=
      List.sublist_mergeSort bwGE_trans bwGE_total hFp (List.filter_sublist l)
    have hself : (l.filter p).filter p = l.filter p := by
      rw [List.filter_eq_self]
      intro a ha
      exact (List.mem_filter.mp ha).2
    have hsubf : List.Sublist (l.filter p) ((List.mergeSort l bwGE).filter p) := by
      have := List.Sublist.filter p hsub
      rwa [hself] at this
    have hlen : (l.filter p).length = ((List.mergeSort l bwGE).filter p).length :=
      ((List.mergeSort_perm l bwGE).filter p).length_eq.symm
    have heq : l.filter p = (List.mergeSort l bwGE).filter p :=
      hsubf.eq_of_length hlen
    have hph : p h = true := by simp [hp]
    have hhead : ((List.mergeSort l bwGE).filter p).head? = some h := by
      rw [hs, List.filter_cons, if_pos hph]
      rfl
    have hfindp : l.find? p = some h := by
      rw [find?_eq_head_filter, heq, hhead]
    rw [List.head?_cons, ← hfindp]
    apply find?_congr_mem
    intro x hx
    apply Bool.eq_iff_iff.mpr
    simp only [hp, List.all_eq_true, decide_eq_true_eq]
    constructor
    · intro hxe w hw
      rw [hxe]
      exact hmax w hw
    · intro hall
      exact Nat.le_antisymm (hmax x hx) (hall h hmem)

/-- C1: For every master playlist, the variant selector (the
`stream_info.sort(key=lambda x: x[0], reverse=True)` / `stream_info[0]`
step of `parse_m3u8`) returns the non-subtitle variant with maximum
`BANDWIDTH` (defaulting to `0` when absent, as `streamInfo` extracts
it), and when several non-subtitle variants are tied at the maximum
bandwidth the earliest-declared one is chosen: the selection equals the
first collected variant whose bandwidth dominates all collected
variants. -/
theorem C1_variant_selector_max_bandwidth_stable (base : Str) (lines : List Str) :
    selectVariant base lines = specSelectVariant (streamInfo base lines) := by
  unfold selectVariant specSelectVariant
  exact head_mergeSort_bwGE (streamInfo base lines)

/-- C2: For every media playlist, the segment extractor returns exactly
the qualifying segment lines, in original line order (so the implicit
ordinals 1..N are the original relative positions), regardless of
interleaved directive or other non-segment lines; in particular the
playlist `seg_001.ts`, `#EXT-X-DISCONTINUITY`, `seg_002.ts` yields the
two segment URLs in order. -/
theorem C2_segment_extractor_order_count (base : Str) (ls : List Str) :
    extractTsSegments base ls =
      (ls.filter qualifiesAsSegment).map (fun l => resolveUrl base (trimL l)) ∧
    (extractTsSegments base ls).length = (ls.filter qualifiesAsSegment).length ∧
    extractTsSegments (("https://host/path/").data)
        (splitOnL (("seg_001.ts\n#EXT-X-DISCONTINUITY\nseg_002.ts").data) newlineL) =
      [("https://host/path/seg_001.ts").data, ("https://host/path/seg_002.ts").data] := by
  refine ⟨extractTsSegments_eq_filter base ls, ?_, by decide⟩
  rw [extractTsSegments_eq_filter base ls, List.length_map]

theorem parseM3u8_fetch_fail (fetch : Str → Option Str) (n : Nat) (url : Str)
    (hf : fetch url = none) :
    parseM3u8 fetch (n + 1) url = some [] := by
  simp only [parseM3u8, hf]

theorem parseM3u8_master_step (fetch : Str → Option Str) (n : Nat) (url text : Str)
    (best : Nat × Str) (hf : fetch url = some text)
    (hm : containsSubL text masterMarker = true)
    (hsel : selectVariant (baseUrlOf url) (splitOnL text newlineL) = some best) :
    parseM3u8 fetch (n + 1) url = parseM3u8 fetch n best.2 := by
  simp only [parseM3u8, hf, hm, hsel, if_true]

theorem parseM3u8_master_no_variant (fetch : Str → Option Str) (n : Nat) (url text : Str)
    (hf : fetch url = some text)
    (hm : containsSubL text masterMarker = true)
    (hsel : selectVariant (baseUrlOf url) (splitOnL text newlineL) = none) :
    parseM3u8 fetch (n + 1) url =
      some (extractTsSegments (baseUrlOf url) (splitOnL text newlineL)) := by
  simp only [parseM3u8, hf, hm, hsel, if_true]

theorem parseM3u8_media (fetch : Str → Option Str) (n : Nat) (url text : Str)
    (hf : fetch url = some text)
    (hm : containsSubL text masterMarker = false) :
    parseM3u8 fetch (n + 1) url =
      some (extractTsSegments (baseUrlOf url) (splitOnL text newlineL)) := by
  simp only [parseM3u8, hf, hm, Bool.false_eq_true, if_false]

/-- A master playlist whose selected variant is the master playlist's
own URL: the fetch function returns the same master document for every
URL. -/
def loopMasterText : Str := ("#EXT-X-STREAM-INF:BANDWIDTH=1000\nhttps://h/master.m3u8\n").data

def loopUrl : Str := ("https://h/master.m3u8").data

def loopFetch : Str → Option Str := fun _ => some loopMasterText

theorem loopFetch_select :
    selectVariant (baseUrlOf loopUrl) (splitOnL loopMasterText newlineL) =
      some (1000, loopUrl) := by
  unfold selectVariant
  rw [head_mergeSort_bwGE]
  decide

/-- C3: the source has no hop cap at all: on a master playlist whose
selected variant points back at the same master playlist, `parse_m3u8`
recurses forever (no recursion depth suffices to reach a terminal media
playlist), and no `PlaylistLoopDetected` failure exists anywhere in the
code. -/
theorem C3_no_hop_cap_unbounded_recursion :
    ∀ n : Nat, parseM3u8 loopFetch n loopUrl = none := by
  intro n
  induction n with
  | zero => rfl
  | succ n ih =>
    have hstep := parseM3u8_master_step loopFetch n loopUrl loopMasterText
      (1000, loopUrl) rfl (by decide) loopFetch_select
    rw [hstep]
    exact ih

/-- A master playlist whose only variant is a subtitle track. -/
def subsOnlyMasterText : Str :=
  ("#EXT-X-STREAM-INF:BANDWIDTH=100,TYPE=SUBTITLES\nsubs.m3u8\n").data

theorem subsOnly_select :
    selectVariant (baseUrlOf loopUrl) (splitOnL subsOnlyMasterText newlineL) = none := by
  unfold selectVariant
  rw [head_mergeSort_bwGE]
  decide

/-- C6 counterexample: a master playlist with zero non-subtitle
variants does not fail — `parse_m3u8` falls through to scanning the
master playlist itself for segment lines and returns an ordinary empty
segment list (there is no `NoEligibleVariant` error in the code). -/
theorem C6_counterexample_returns_empty_list :
    parseM3u8 (fun _ => some subsOnlyMasterText) 5 loopUrl = some [] := by
  have h := parseM3u8_master_no_variant (fun _ => some subsOnlyMasterText) 4 loopUrl
    subsOnlyMasterText rfl (by decide) subsOnly_select
  rw [h]
  decide

/-- C6 (amended): when a master playlist contains zero non-subtitle
variants, the selector selects nothing and `parse_m3u8` falls through to
scanning the master playlist's own lines with the segment heuristic,
returning that (typically empty) ordinary segment list; the top-level
caller then reports a generic no-segments failure on seeing an empty
list.  No `NoEligibleVariant` error exists. -/
theorem C6_no_variant_falls_through_to_segment_scan
    (fetch : Str → Option Str) (n : Nat) (url text : Str)
    (hf : fetch url = some text)
    (hm : containsSubL text masterMarker = true)
    (hsel : selectVariant (baseUrlOf url) (splitOnL text newlineL) = none) :
    parseM3u8 fetch (n + 1) url =
      some (extractTsSegments (baseUrlOf url) (splitOnL text newlineL)) :=
  parseM3u8_master_no_variant fetch n url text hf hm hsel

theorem C6_witness :
    parseM3u8 (fun _ => some subsOnlyMasterText) 3 loopUrl =
      some (extractTsSegments (baseUrlOf loopUrl) (splitOnL subsOnlyMasterText newlineL)) :=
  C6_no_variant_falls_through_to_segment_scan (fun _ => some subsOnlyMasterText) 2 loopUrl
    subsOnlyMasterText rfl (by decide) subsOnly_select

/-- C7 counterexample: neither a transport failure nor an empty playlist
body is surfaced as an error: in both cases `parse_m3u8` returns an
ordinary empty segment list (the transport exception is caught by the
`except` clause, and an empty body is tolerated by the permissive
segment scan); no `PlaylistFetchError` or `MalformedPlaylist` exists. -/
theorem C7_counterexample_no_error_surfaced :
    parseM3u8 (fun _ => none) 1 loopUrl = some [] ∧
    parseM3u8 (fun _ => some []) 1 loopUrl = some [] := by
  constructor
  · exact parseM3u8_fetch_fail (fun _ => none) 0 loopUrl rfl
  · exact parseM3u8_media (fun _ => some []) 0 loopUrl [] rfl (by decide)

/-- C7 (amended): an empty playlist body and a transport failure are
both tolerated rather than raised: a failed fetch is caught inside
`parse_m3u8` and yields an ordinary empty segment list, and an empty
body yields the (empty) result of the ordinary segment scan; the caller
interprets an empty list as failure.  No `MalformedPlaylist` or
`PlaylistFetchError` errors exist. -/
theorem C7_empty_and_transport_failure_yield_empty_list
    (fetch : Str → Option Str) (n : Nat) (url : Str) :
    (fetch url = none → parseM3u8 fetch (n + 1) url = some []) ∧
    (fetch url = some [] → parseM3u8 fetch (n + 1) url = some []) := by
  constructor
  · intro hf
    exact parseM3u8_fetch_fail fetch n url hf
  · intro hf
    exact parseM3u8_media fetch n url [] hf (by decide)

theorem C7_witness :
    parseM3u8 (fun _ => none) 2 loopUrl = some [] ∧
    parseM3u8 (fun _ => some []) 2 loopUrl = some [] :=
  ⟨(C7_empty_and_transport_failure_yield_empty_list (fun _ => none) 1 loopUrl).1 rfl,
   (C7_empty_and_transport_failure_yield_empty_list (fun _ => some []) 1 loopUrl).2 rfl⟩

/-- Left zero-padding to a minimum width, as in Python's `f"{i:05d}"`
for a non-negative value: shorter digit runs are padded to the width,
longer ones are kept whole. -/
def zeroPad (w : Nat) (s : Str) : Str :=
  if s.length < w then List.replicate (w - s.length) '0' ++ s else s

/-- The decimal digits of `n`. -/
def natDigits (n : Nat) : Str :=
  Nat.toDigits 10 n

/-- The per-segment sink name `f"segment_{i:05d}.ts"` (line 352). -/
def segmentName (i : Nat) : Str :=
  ("segment_").data ++ zeroPad 5 (natDigits i) ++ (".ts").data

/-- The loop of `download_all_segments` (lines 350-358): enumerate the
segment URLs from ordinal 1, derive each sink path `temp_dir / name`,
and record the path in `downloaded_files` — the path is appended before
the download is attempted, and a failed `download_segment` only logs a
warning (lines 354-357), so the fetch outcome (`fetchOk`) never alters
the returned list. -/
def downloadLoop (tempDir : Str) (fetchOk : Str → Bool) : Nat → List Str → List Str
  | _, [] => []
  | i, _ :: rest =>
    (tempDir ++ ("/").data ++ segmentName i) :: downloadLoop tempDir fetchOk (i + 1) rest

/-- `download_all_segments` (lines 346-359). -/
def downloadAllSegments (fetchOk : Str → Bool) (tempDir : Str) (urls : List Str) : List Str :=
  downloadLoop tempDir fetchOk 1 urls

/-- The error the spec's Segment Fetcher is claimed to raise on an
empty input sequence. -/
inductive FetchErr
  | fetchAborted
deriving DecidableEq

/-- `download_all_segments` with an explicit error channel, to state the
spec's claimed `FetchAborted` behavior against: the Python function body
contains no `raise` at all, so the embedding always returns `Except.ok`. -/
def downloadAllSegmentsE (fetchOk : Str → Bool) (tempDir : Str) (urls : List Str) :
    Except FetchErr (List Str) :=
  Except.ok (downloadAllSegments fetchOk tempDir urls)

theorem downloadLoop_eq_range (tempDir : Str) (fetchOk : Str → Bool) :
    ∀ (urls : List Str) (i : Nat),
      downloadLoop tempDir fetchOk i urls =
        (List.range urls.length).map (fun k => tempDir ++ ("/").data ++ segmentName (i + k)) := by
  intro urls
  induction urls with
  | nil => intro i; rfl
  | cons u rest ih =>
    intro i
    simp only [downloadLoop, List.length_cons, List.range_succ_eq_map, List.map_cons,
      Nat.add_zero, List.map_map, ih (i + 1)]
    congr 1
    apply List.map_congr_left
    intro k _
    simp only [Function.comp_apply]
    congr 2
    omega

/-- C5 counterexample: on an empty input segment sequence the fetcher
does not raise `FetchAborted` — it returns an ordinary empty result
list. -/
theorem C5_counterexample_empty_input_no_raise :
    downloadAllSegmentsE (fun _ => false) (("/tmp/run").data) [] = Except.ok [] ∧
    downloadAllSegmentsE (fun _ => false) (("/tmp/run").data) [] ≠
      Except.error FetchErr.fetchAborted := by
  constructor
  · rfl
  · intro h
    exact Except.noConfusion h

/-- C5 (amended): the fetcher processes segments in ordinal order,
names each local sink with the ordinal zero-padded to at least five
digits, never raises — a per-segment fetch failure is only logged and
the run continues — and returns one path entry per input segment, in
order, including the failed ones; an empty input yields an ordinary
empty result list (no `FetchAborted` exists; the caller rejects empty
playlists before invoking the fetcher). -/
theorem C5_fetcher_total_ordered_named (fetchOk : Str → Bool) (tempDir : Str)
    (urls : List Str) :
    downloadAllSegmentsE fetchOk tempDir urls =
      Except.ok ((List.range urls.length).map
        (fun k => tempDir ++ ("/").data ++ segmentName (k + 1))) := by
  unfold downloadAllSegmentsE downloadAllSegments
  rw [downloadLoop_eq_range]
  congr 1
  apply List.map_congr_left
  intro k _
  congr 2
  omega

/-- The manifest-writing loop of `concatenate_with_ffmpeg`
(lines 365-371): one `file <path>` line (path in single quotes) per segment file that exists,
in list order; `abspath` models `Path.resolve()`. -/
def concatManifestLines (exist : Str → Bool) (abspath : Str → Str) : List Str → List Str
  | [] => []
  | f :: rest =>
    if exist f then
      (("file ").data ++ [Char.ofNat 39] ++ abspath f ++ [Char.ofNat 39] ++ newlineL) ::
        concatManifestLines exist abspath rest
    else
      concatManifestLines exist abspath rest

/-- The sink paths produced by one fetch run of `n` segments. -/
def segmentPaths (tempDir : Str) (n : Nat) : List Str :=
  (List.range n).map (fun k => tempDir ++ ("/").data ++ segmentName (k + 1))

theorem concatManifestLines_eq_filter (exist : Str → Bool) (abspath : Str → Str)
    (files : List Str) :
    concatManifestLines exist abspath files =
      (files.filter exist).map
        (fun f => ("file ").data ++ [Char.ofNat 39] ++ abspath f ++ [Char.ofNat 39] ++ newlineL) := by
  induction files with
  | nil => rfl
  | cons f rest ih =>
    rcases h : exist f with _ | _
    · simp [concatManifestLines, List.filter_cons, h, ih]
    · simp [concatManifestLines, List.filter_cons, h, ih]

/-- C4: the remux concat manifest references exactly the slots whose
local file exists, one entry per existing slot in the original
(ascending-ordinal) order, each naming the absolute path; a missing slot
is omitted without renumbering.  In particular, for 10 segments of which
segment 5 is missing, the manifest has 9 entries, in the original
relative order. -/
theorem C4_manifest_skips_missing_slots (exist : Str → Bool) (abspath : Str → Str)
    (files : List Str) :
    concatManifestLines exist abspath files =
      (files.filter exist).map
        (fun f => ("file ").data ++ [Char.ofNat 39] ++ abspath f ++ [Char.ofNat 39] ++ newlineL) ∧
    (concatManifestLines
        (fun f => !(f == ("/tmp/run").data ++ ("/").data ++ segmentName 5))
        (fun f => f) (segmentPaths (("/tmp/run").data) 10)).length = 9 ∧
    concatManifestLines
        (fun f => !(f == ("/tmp/run").data ++ ("/").data ++ segmentName 5))
        (fun f => f) (segmentPaths (("/tmp/run").data) 10) =
      ((List.range 10).filter (fun k => !(k + 1 == 5))).map
        (fun k => ("file ").data ++ [Char.ofNat 39] ++
          (("/tmp/run").data ++ ("/").data ++ segmentName (k + 1)) ++ [Char.ofNat 39] ++ newlineL) := by
  refine ⟨concatManifestLines_eq_filter exist abspath files, by decide, by decide⟩

/-- The copy loop of `concatenate_simple` (lines 406-410): append the
raw bytes of each existing segment file, in list order; a missing file
contributes nothing.  Bytes are modelled as `List Nat`. -/
def concatSimpleBytes (exist : Str → Bool) (content : Str → List Nat) : List Str → List Nat
  | [] => []
  | f :: rest =>
    (if exist f then content f else []) ++ concatSimpleBytes exist content rest

/-- `concatenate_simple` (lines 402-418): open the output, copy every
existing segment file's bytes in order, and return `True` — the source
returns `False` only when an OS exception escapes the copy loop, and
I/O is modelled as non-failing here, so the success flag is
unconditionally `true`; in particular it does not depend on whether any
bytes were written. -/
def concatenateSimple (exist : Str → Bool) (content : Str → List Nat) (files : List Str) :
    Bool × List Nat :=
  (true, concatSimpleBytes exist content files)

theorem concatSimpleBytes_eq_join (exist : Str → Bool) (content : Str → List Nat)
    (files : List Str) :
    concatSimpleBytes exist content files = ((files.filter exist).map content).flatten := by
  induction files with
  | nil => rfl
  | cons f rest ih =>
    rcases h : exist f with _ | _
    · simp [concatSimpleBytes, List.filter_cons, h, ih]
    · simp [concatSimpleBytes, List.filter_cons, h, ih]

/-- C8 counterexample: an assembly run with zero successful slots (no
segment file exists) is nevertheless reported as a success by the
raw-concatenation fallback, although zero bytes are written. -/
theorem C8_counterexample_zero_slots_success :
    concatenateSimple (fun _ => false) (fun _ => [7]) (segmentPaths (("/tmp/run").data) 10) =
      (true, []) := by
  decide

/-- C8 (amended): the raw-concatenation fallback reports success
unconditionally (absent an I/O exception), even when zero slots
succeeded and zero bytes were written; the bytes written are exactly the
existing slots' bytes in ascending ordinal order, so a zero-success run
produces an empty output file that is still reported as success (and
`download_video` returns that success).  No zero-successful-slot hard
failure exists. -/
theorem C8_simple_concat_always_succeeds (exist : Str → Bool) (content : Str → List Nat)
    (files : List Str) :
    (concatenateSimple exist content files).1 = true ∧
    (concatenateSimple exist content files).2 = ((files.filter exist).map content).flatten :=
  ⟨rfl, concatSimpleBytes_eq_join exist content files⟩

/-- The outcome of the `subprocess.run` call in `concatenate_with_ffmpeg`
(lines 385-397): either the tool was missing (`FileNotFoundError`) or it
completed with some exit code. -/
inductive RemuxRun
  | toolMissing
  | exited (code : Int)
deriving DecidableEq

/-- The success test of `concatenate_with_ffmpeg` (lines 387-397): a
missing tool is failure, otherwise success is exactly `returncode == 0`.
The existence of the declared output file (`outputExists`) is never
consulted by the source. -/
def concatenateWithFfmpeg (run : RemuxRun) (outputExists : Bool) : Bool :=
  match run with
  | RemuxRun.toolMissing => false
  | RemuxRun.exited code => code == 0

/-- Models `Path.with_suffix` as used on the output file name
(line 490): replace everything after the last dot (or append when there
is no dot). -/
def withSuffix (p suf : Str) : Str :=
  let parts := splitOnL p (".").data
  if parts.length ≤ 1 then p ++ suf
  else List.intercalate (".").data parts.dropLast ++ suf

/-- The stitching step of `download_video` (lines 486-493): try the
ffmpeg remux; on its failure, retarget the output to a `.ts` name and
run the raw concatenation, whose success flag becomes the overall
result.  Returns the reported success flag and the output path used. -/
def assembleStep (run : RemuxRun) (outputExists : Bool) (exist : Str → Bool)
    (content : Str → List Nat) (files : List Str) (outputPath : Str) : Bool × Str :=
  if concatenateWithFfmpeg run outputExists then
    (true, outputPath)
  else
    ((concatenateSimple exist content files).1, withSuffix outputPath (".ts").data)

/-- C9 counterexample: a remux run that exits with code 0 but whose
declared output does not exist is treated as remux success — no fallback
happens, the reported path keeps its `.mp4` name, and success is
reported; so "declared output does not exist" does not trigger the
fallback, contrary to the claim. -/
theorem C9_counterexample_output_absence_not_detected :
    assembleStep (RemuxRun.exited 0) false (fun _ => true) (fun _ => [])
        [] (("video.mp4").data) =
      (true, ("video.mp4").data) := by
  decide

/-- C9 (amended): when the remux strategy fails in a way the source
detects — the external tool missing, or a non-zero exit status — the
assembler does not escalate: it falls back to raw binary concatenation
of the existing slots in ascending ordinal order, the output name gets
the `.ts` suffix in place of `.mp4`, and the run still reports success
(distinct from a hard failure); output-file absence after a zero exit is
not detected and does not trigger fallback. -/
theorem C9_detected_remux_failure_falls_back (run : RemuxRun) (outputExists : Bool)
    (exist : Str → Bool) (content : Str → List Nat) (files : List Str) (outputPath : Str)
    (hfail : concatenateWithFfmpeg run outputExists = false) :
    assembleStep run outputExists exist content files outputPath =
      (true, withSuffix outputPath (".ts").data) ∧
    concatSimpleBytes exist content files = ((files.filter exist).map content).flatten := by
  constructor
  · unfold assembleStep
    rw [hfail]
    simp [concatenateSimple]
  · exact concatSimpleBytes_eq_join exist content files

theorem C9_witness :
    assembleStep RemuxRun.toolMissing true (fun _ => true) (fun _ => [3])
        [("a.ts").data] (("video.mp4").data) =
      (true, withSuffix (("video.mp4").data) (".ts").data) ∧
    concatSimpleBytes (fun _ => true) (fun _ => [3]) [("a.ts").data] =
      (([("a.ts").data].filter (fun _ => true)).map (fun _ => ([3] : List Nat))).flatten :=
  C9_detected_remux_failure_falls_back RemuxRun.toolMissing true (fun _ => true)
    (fun _ => [3]) [("a.ts").data] (("video.mp4").data) rfl

/-- The temp-directory lifecycle of `download_video` (lines 462-498):
`tempfile.mkdtemp` acquires the directory, the body (steps 3 and 4) runs
inside `try`, and the `finally` clause removes the directory whether the
body returned normally or raised.  The body's outcome is modelled as an
`Except` value; the directory set is the explicit state. -/
def runWithTempDir (dirs : List Str) (tempDir : Str) (body : Except Str Bool) :
    List Str × Except Str Bool :=
  let acquired := tempDir :: dirs
  match body with
  | Except.ok v => (acquired.erase tempDir, Except.ok v)
  | Except.error e => (acquired.erase tempDir, Except.error e)

/-- C10: the temporary segment directory is removed on every exit path
of a run — normal return (success or failure flag) and exception alike —
so the directory set after the run equals the directory set before it,
and the body's outcome is passed through unchanged. -/
theorem C10_temp_dir_removed_on_every_exit (dirs : List Str) (tempDir : Str)
    (body : Except Str Bool) :
    (runWithTempDir dirs tempDir body).1 = dirs ∧
    (runWithTempDir dirs tempDir body).2 = body := by
  cases body with
  | ok v => exact ⟨List.erase_cons_head tempDir dirs, rfl⟩
  | error e => exact ⟨List.erase_cons_head tempDir dirs, rfl⟩

end Mediaspace
